import Mathlib

/-!
Verification of the mesh transport layer of the ble_agent repository.

The development shallowly embeds the Python sources:
  * `mesh.py`      — the simulated `MeshNetwork` (registration, send, delayed delivery);
  * `ble_mesh.py`  — `BLEMesh` (outbound queue processing, chunked send, discovery callback);
  * `simple_ble_mesh.py` — `SimpleBLEMesh` (string chunking, notification handler).

Python dictionaries are embedded as association lists in insertion order,
Python object identity (needed for the `message.copy()` frame property) as a
small heap of dictionaries addressed by natural-number references, and the
`json` module as a serializer/parser for flat string-valued objects without
escape sequences (the shape every message exercised by the repository has).
-/

namespace BLEAgent

/-! ## Python value and dictionary model (mesh.py messages) -/

/-- Values stored in a message dictionary: strings, ints (`message_id`) and
event-loop timestamps (modelled as an abstract tick count). -/
inductive PyVal where
  | str (s : String)
  | int (n : Int)
  | time (t : Nat)
deriving Repr, DecidableEq

/-- A Python dict as an association list in insertion order. -/
abbrev PyDict := List (String × PyVal)

/-- Python dict assignment `d[k] = v`: replaces the value in place when the
key is present, otherwise appends the key at the end. -/
def dictSetKey : PyDict → String → PyVal → PyDict
  | [], k, v => [(k, v)]
  | (k0, v0) :: rest, k, v =>
    if k0 = k then (k0, v) :: rest else (k0, v0) :: dictSetKey rest k v

/-- A heap of dictionaries: object identity is the list index, so aliasing and
`dict.copy()` can be expressed. -/
abbrev Heap := List PyDict

def heapRead (h : Heap) (r : Nat) : PyDict := h.getD r []

def heapWrite (h : Heap) (r : Nat) (d : PyDict) : Heap := h.set r d

/-- Allocate a fresh dictionary (`dict.copy()` allocates); returns the new heap
and the reference of the new object. -/
def heapAlloc (h : Heap) (d : PyDict) : Heap × Nat := (h ++ [d], h.length)

/-! ## mesh.py — the simulated MeshNetwork -/

/-- State of `MeshNetwork`: the `agents` table maps agent id to its callback
(callbacks are opaque, identified by a number), plus `message_counter`. -/
structure MeshState where
  agents : List (String × Nat)
  messageCounter : Nat
deriving Repr, DecidableEq

/-- The exceptions `mesh.py` raises: `KeyError` on an unknown receiver
(the spec's `UnknownRecipient`), `ValueError` on duplicate registration
(the spec's `DuplicateAgent`). Message texts are not modelled. -/
inductive MeshError where
  | keyError
  | valueError
deriving Repr, DecidableEq

def lookupAgent (st : MeshState) (agentId : String) : Option Nat :=
  st.agents.lookup agentId

/-- `MeshNetwork.register_agent`: raises `ValueError` if the id is present,
otherwise stores the callback. Returns the result and the post state
(on an exception `self` is unchanged). -/
def registerAgent (st : MeshState) (agentId : String) (cb : Nat) :
    Except MeshError Unit × MeshState :=
  if (st.agents.lookup agentId).isSome then (.error .valueError, st)
  else (.ok (), { st with agents := st.agents ++ [(agentId, cb)] })

/-- `MeshNetwork.unregister_agent`: deletes the id if present, no-op otherwise. -/
def unregisterAgent (st : MeshState) (agentId : String) : MeshState :=
  { st with agents := st.agents.filter (fun p => p.1 ≠ agentId) }

/-- The delivery task `MeshNetwork.send` schedules via `asyncio.create_task`:
sender, receiver, the reference of the caller's message dict, and the
captured `message_id`. -/
structure Pending where
  sender : String
  recipient : String
  msgRef : Nat
  messageId : Nat
deriving Repr, DecidableEq

/-- `MeshNetwork.send`: raises `KeyError` when the receiver is not in
`self.agents` (before touching the counter); otherwise captures
`message_id = self.message_counter`, increments the counter and schedules a
delivery task. -/
def send (st : MeshState) (sender receiver : String) (msgRef : Nat) :
    Except MeshError Pending × MeshState :=
  if (st.agents.lookup receiver).isNone then (.error .keyError, st)
  else
    (.ok { sender := sender, recipient := receiver, msgRef := msgRef,
           messageId := st.messageCounter },
     { st with messageCounter := st.messageCounter + 1 })

/-- `MeshNetwork._deliver_message`, run after the latency sleep with the
then-current agents table: looks the receiver up again; if gone, does
nothing (silent drop); otherwise copies the caller's dict, adds
`message_id` and `timestamp` to the copy, and invokes the callback with the
copy. Returns the heap after delivery and the dispatch event
`(callback, sender, reference of the dict the handler receives)`. -/
def deliverMessage (h : Heap) (st : MeshState) (p : Pending) (now : Nat) :
    Heap × Option (Nat × String × Nat) :=
  match lookupAgent st p.recipient with
  | none => (h, none)
  | some cb =>
    let d := heapRead h p.msgRef
    let (h1, copyRef) := heapAlloc h d
    let h2 := heapWrite h1 copyRef
      (dictSetKey (heapRead h1 copyRef) "message_id" (.int p.messageId))
    let h3 := heapWrite h2 copyRef
      (dictSetKey (heapRead h2 copyRef) "timestamp" (.time now))
    (h3, some (cb, p.sender, copyRef))

/-- Run a list of `send` requests `(sender, receiver, msgRef)` on a mesh
instance, collecting the `message_id` of every successful send in order. -/
def runSends (st : MeshState) : List (String × String × Nat) → List Nat
  | [] => []
  | (s, r, ref) :: rest =>
    match send st s r ref with
    | (.ok p, st2) => p.messageId :: runSends st2 rest
    | (.error _, st2) => runSends st2 rest

/-! ## Chunking (ble_mesh._send_ble_message / simple_ble_mesh.send_message)

Both senders run `for i in range(0, len(xs), 20): chunk = xs[i:i+20]`:
fixed-size slicing with a hard-coded chunk size of 20 (the BLE MTU).
`chunkAux` is that loop with an explicit fuel bound of `xs.length`, which is
always enough iterations since each one consumes at least one element. -/

def chunkAux {α : Type} : Nat → List α → List (List α)
  | _, [] => []
  | 0, l => [l]
  | n + 1, l => l.take 20 :: chunkAux n (l.drop 20)

/-- `xs[i:i+20]` slices for `i in range(0, len(xs), 20)`. -/
def chunk20 {α : Type} (l : List α) : List (List α) := chunkAux l.length l

/-- Byte view of the ASCII string `json.dumps` produces (`ensure_ascii=True`
keeps every character below 128, so UTF-8 encoding is one byte per char). -/
def strBytes (s : String) : List Nat := s.data.map Char.toNat

/-! ## json model: flat objects with string values, no escape sequences

`json.dumps` with default options renders `{"k": "v", ...}` with separators
`", "` and `": "`; `json.loads` parses a complete document and rejects
trailing or truncated input. Messages are modelled as association lists of
string keys and string values in insertion order. -/

/-- `json.dumps` on a flat string-valued dict. -/
def dumps (m : List (String × String)) : String :=
  "\x7b" ++ String.intercalate ", " (m.map (fun kv => "\"" ++ kv.1 ++ "\": \"" ++ kv.2 ++ "\"")) ++ "\x7d"

/-- Scan a JSON string body up to its closing quote (no escapes). -/
def jstrAux : List Char → List Char → Option (String × List Char)
  | [], _ => none
  | c :: rest, acc =>
    if c = '\"' then some (String.mk acc.reverse, rest)
    else if c = '\\' then none
    else jstrAux rest (c :: acc)

/-- Parse a JSON string literal. -/
def parseJString : List Char → Option (String × List Char)
  | [] => none
  | c :: rest => if c = '\"' then jstrAux rest [] else none

def skipSpaces : List Char → List Char
  | [] => []
  | c :: rest => if c = ' ' then skipSpaces rest else c :: rest

/-- Parse `"k": "v"` pairs separated by commas; fuel bounds the recursion. -/
def parsePairs : Nat → List Char → Option (List (String × String) × List Char)
  | 0, _ => none
  | fuel + 1, cs =>
    match parseJString cs with
    | none => none
    | some (k, cs1) =>
      match skipSpaces cs1 with
      | ':' :: cs2 =>
        match parseJString (skipSpaces cs2) with
        | none => none
        | some (v, cs3) =>
          match skipSpaces cs3 with
          | ',' :: cs4 =>
            match parsePairs fuel (skipSpaces cs4) with
            | some (rest, cs5) => some ((k, v) :: rest, cs5)
            | none => none
          | cs4 => some ([(k, v)], cs4)
      | _ => none

/-- `json.loads` on one chunk: succeeds only on a complete object with
nothing but whitespace left over, exactly the behaviour the notification
handlers rely on when they decode a chunk. -/
def loads (s : String) : Option (List (String × String)) :=
  match skipSpaces s.data with
  | '\x7b' :: cs =>
    match skipSpaces cs with
    | '\x7d' :: cs2 => if skipSpaces cs2 = [] then some [] else none
    | cs1 =>
      match parsePairs (s.length + 1) cs1 with
      | some (m, cs2) =>
        match skipSpaces cs2 with
        | '\x7d' :: cs3 => if skipSpaces cs3 = [] then some m else none
        | _ => none
      | none => none
  | _ => none

/-! ## simple_ble_mesh.py — chunked send and the notification handler -/

/-- `SimpleBLEMesh.send_message` slices `json.dumps(message)` into 20-character
pieces and writes each piece; `BLEMesh._send_ble_message` does the same on the
encoded bytes. The chunk stream a message produces on the wire. -/
def sendBleChunks (m : List (String × String)) : List (List Nat) :=
  chunk20 (strBytes (dumps m))

/-- `SimpleBLEMesh._notification_handler`: decodes ONE chunk with
`json.loads`; on success, if the message has a `type` registered in
`self.callbacks` and the sending peer is identified, dispatches
`(peer_id, message)`. Any decode failure is caught and only printed. -/
def notificationHandler (callbacks : List String) (peerId : Option String)
    (chunk : String) : Option (String × List (String × String)) :=
  match loads chunk with
  | none => none
  | some message =>
    match message.lookup "type" with
    | none => none
    | some t =>
      if callbacks.contains t then
        match peerId with
        | some pid => some (pid, message)
        | none => none
      else none

/-! ## ble_mesh.py — outbound queue processing and discovery -/

/-- Observable outcome of one iteration of `BLEMesh._process_message_queue`
on a dequeued `(target_id, message)`. -/
structure QueueStepResult where
  writeAttempts : Nat
  delivered : Bool
  reconnectAttempted : Bool
  errorToCaller : Bool
deriving Repr, DecidableEq

/-- One iteration of `BLEMesh._process_message_queue`: if a connected client
exists, try the chunked write once; on failure print the error and call
`_connect_to_peer` (the message is not re-sent). Otherwise connect first and,
if that succeeds, try the write once; every failure is only printed, nothing
reaches the caller of `send_message` (which already returned at enqueue
time). `writeOk` abstracts whether `write_gatt_char` raises, `connectOk`
whether `_connect_to_peer` returns True. -/
def processQueueItem (clientConnected writeOk connectOk : Bool) : QueueStepResult :=
  if clientConnected then
    if writeOk then
      { writeAttempts := 1, delivered := true, reconnectAttempted := false,
        errorToCaller := false }
    else
      { writeAttempts := 1, delivered := false, reconnectAttempted := true,
        errorToCaller := false }
  else
    if connectOk then
      if writeOk then
        { writeAttempts := 1, delivered := true, reconnectAttempted := false,
          errorToCaller := false }
      else
        { writeAttempts := 1, delivered := false, reconnectAttempted := false,
          errorToCaller := false }
    else
      { writeAttempts := 0, delivered := false, reconnectAttempted := false,
        errorToCaller := false }

/-- The slice of `BLEMesh` state `_detection_callback` consults: the local
agent id (the advertisement name is `"AgentMesh-" ++ agentId`), the keys of
`connected_devices`, and the keys of `_local_agents`. -/
structure BLEState where
  agentId : String
  connectedDevices : List String
  localAgents : List String
deriving Repr, DecidableEq

def localName (st : BLEState) : String := "AgentMesh-" ++ st.agentId

/-- `name.startswith("AgentMesh-")`, on the character lists of the strings. -/
def startsWithAgentMesh (s : String) : Bool := "AgentMesh-".data.isPrefixOf s.data

/-- `name.split("-", 1)[1]`: everything after the first hyphen. -/
def dropThroughDash : List Char → List Char
  | [] => []
  | c :: rest => if c = '-' then rest else dropThroughDash rest

def splitDashTail (s : String) : String := String.mk (dropThroughDash s.data)

/-- `BLEMesh._detection_callback`: ignores a missing name, the local agent's
own advertisement, non-mesh names, the local agent id, already-connected
peers and in-process local agents; otherwise connects (surfaces the peer)
only when the outbound queue holds a message for it. Returns the peer id a
connection task is created for, if any. -/
def detectionCallback (st : BLEState) (deviceName : Option String)
    (queueTargets : List String) : Option String :=
  match deviceName with
  | none => none
  | some name =>
    if name = localName st then none
    else if startsWithAgentMesh name then
      let peerId := splitDashTail name
      if peerId = st.agentId ∨ st.connectedDevices.contains peerId then none
      else if st.localAgents.contains peerId then none
      else if queueTargets.contains peerId then some peerId
      else none
    else none

/-- A concrete chat message whose serialization exceeds the 20-byte MTU. -/
def msg0 : List (String × String) :=
  [("type", "chat"), ("content", "hello from the far peer")]

/-! ## Helper lemmas -/

theorem chunkAux_flatten {α : Type} (n : Nat) (l : List α) :
    (chunkAux n l).flatten = l := by
  induction n generalizing l with
  | zero => cases l <;> simp [chunkAux]
  | succ n ih =>
    cases l with
    | nil => simp [chunkAux]
    | cons a t => simp [chunkAux, ih]

theorem chunkAux_le {α : Type} (n : Nat) (l : List α) (hn : l.length ≤ n) :
    ∀ c ∈ chunkAux n l, c.length ≤ 20 := by
  induction n generalizing l with
  | zero =>
    cases l with
    | nil => simp [chunkAux]
    | cons a t => simp at hn
  | succ n ih =>
    cases l with
    | nil => simp [chunkAux]
    | cons a t =>
      intro c hc
      simp only [chunkAux, List.mem_cons] at hc
      rcases hc with rfl | hc
      · simp
      · refine ih _ ?_ c hc
        simp only [List.length_drop, List.length_cons] at *
        omega

theorem chunk20_flatten {α : Type} (l : List α) : (chunk20 l).flatten = l :=
  chunkAux_flatten l.length l

theorem chunk20_le {α : Type} (l : List α) : ∀ c ∈ chunk20 l, c.length ≤ 20 :=
  chunkAux_le l.length l le_rfl

theorem lookup_filter_ne_self (l : List (String × Nat)) (a : String) :
    (l.filter fun p => p.1 ≠ a).lookup a = none := by
  induction l with
  | nil => rfl
  | cons p t ih =>
    obtain ⟨k, v⟩ := p
    by_cases h : k = a
    · simpa [List.filter_cons, h] using ih
    · have hk : (a == k) = false := by
        simp [beq_eq_false_iff_ne]
        exact fun e => h e.symm
      simp [List.filter_cons, h, List.lookup, hk, ih]
      exact fun x b _ hne e => hne e.symm

/-! ## Claims about the chunker and the queue -/

/-- Claim C3: chunking a message for transmission produces an ordered
sequence of byte chunks, each at most mtu = 20 bytes, by fixed-size slicing
of the serialized envelope, and the chunks concatenated in order equal the
serialized envelope. -/
theorem claim_C3_chunks_bounded_and_concat_to_envelope :
    ∀ m : List (String × String),
      (∀ c ∈ sendBleChunks m, c.length ≤ 20) ∧
      (sendBleChunks m).flatten = strBytes (dumps m) := by
  intro m
  exact ⟨chunk20_le _, chunk20_flatten _⟩

/-- Claim C1 (refuted, code bug): the spec asks that chunking a payload
larger than the MTU and feeding every chunk, in order, to the inbound
handler reconstructs the payload. The notification handler decodes each
chunk independently as a complete JSON document, so for the concrete
payload `msg0` (54 serialized bytes, 3 chunks) no chunk is ever dispatched,
although the handler would dispatch the very same payload arriving whole. -/
theorem claim_C1_chunked_payload_never_dispatched :
    20 < (dumps msg0).length ∧
    (chunk20 (dumps msg0).data).length = 3 ∧
    (∀ c ∈ chunk20 (dumps msg0).data,
      notificationHandler ["chat"] (some "B") (String.mk c) = none) ∧
    notificationHandler ["chat"] (some "B") (dumps msg0) = some ("B", msg0) := by
  exact ⟨by decide, by decide, by decide, by decide⟩

/-- Claim C2 (refuted, code bug): the spec asks that a failed chunk write
be followed by one reconnect and one retry of the whole envelope, a second
failure surfacing DeliveryFailed to the caller. In
`BLEMesh._process_message_queue` a write failure on a connected client
leads to a reconnect attempt but the envelope is dropped after its single
write attempt, and no outcome of any branch ever reaches the caller. -/
theorem claim_C2_write_failure_drops_envelope_silently :
    processQueueItem true false true =
      { writeAttempts := 1, delivered := false, reconnectAttempted := true,
        errorToCaller := false } ∧
    ∀ clientConnected writeOk connectOk : Bool,
      (processQueueItem clientConnected writeOk connectOk).errorToCaller = false := by
  exact ⟨rfl, by decide⟩

/-! ## Claims about the simulated mesh (mesh.py) -/

/-- Claim C4: `send` fails (with `KeyError`, the spec's UnknownRecipient)
exactly when the receiver has no registration at the time of the call; in
particular after `unregister_agent "A"`, sending to "A" fails. -/
theorem claim_C4_send_fails_iff_unregistered :
    (∀ (st : MeshState) (s r : String) (ref : Nat),
      (send st s r ref).1 = .error .keyError ↔ st.agents.lookup r = none) ∧
    (∀ (st : MeshState) (s : String) (ref : Nat),
      (send (unregisterAgent st "A") s "A" ref).1 = .error .keyError) := by
  constructor
  · intro st s r ref
    rcases h : st.agents.lookup r with _ | cb <;> simp [send, h]
  · intro st s ref
    have h : ((unregisterAgent st "A").agents).lookup "A" = none :=
      lookup_filter_ne_self st.agents "A"
    simp [send, h]

/-- Claim C5: registering an already-present agent id fails with
`ValueError` (the spec's DuplicateAgent), the state is returned unchanged,
and the original registration is still the one looked up afterwards. -/
theorem claim_C5_duplicate_registration_rejected (st : MeshState)
    (agentId : String) (cb cb2 : Nat)
    (h : st.agents.lookup agentId = some cb) :
    registerAgent st agentId cb2 = (.error .valueError, st) ∧
    lookupAgent st agentId = some cb := by
  simp [registerAgent, lookupAgent, h]

/-- Witness for C5 at a concrete registry. -/
theorem claim_C5_witness :
    registerAgent ⟨[("A", 7)], 0⟩ "A" 9 = (.error .valueError, ⟨[("A", 7)], 0⟩) ∧
    lookupAgent ⟨[("A", 7)], 0⟩ "A" = some 7 :=
  claim_C5_duplicate_registration_rejected ⟨[("A", 7)], 0⟩ "A" 7 9 (by decide)

/-- Claim C9: a `send` whose receiver is unregistered raises before any
state change: the returned state is the input state, so `message_counter`
keeps its value and the agents table is untouched. -/
theorem claim_C9_failed_send_leaves_state_unchanged (st : MeshState)
    (s r : String) (ref : Nat) (h : st.agents.lookup r = none) :
    send st s r ref = (.error .keyError, st) := by
  simp [send, h]

/-- Witness for C9 on the empty mesh. -/
theorem claim_C9_witness :
    send ⟨[], 0⟩ "X" "A" 0 = (.error .keyError, ⟨[], 0⟩) :=
  claim_C9_failed_send_leaves_state_unchanged ⟨[], 0⟩ "X" "A" 0 (by decide)

theorem runSends_lower_bound (reqs : List (String × String × Nat))
    (st : MeshState) : ∀ i ∈ runSends st reqs, st.messageCounter ≤ i := by
  induction reqs generalizing st with
  | nil => simp [runSends]
  | cons req rest ih =>
    obtain ⟨s, r, ref⟩ := req
    rcases h : st.agents.lookup r with _ | cb
    · simpa [runSends, send, h] using ih st
    · intro i hi
      simp only [runSends, send, h, Option.isNone_some, Bool.false_eq_true,
        if_false, List.mem_cons] at hi
      rcases hi with rfl | hi
      · exact le_rfl
      · have := ih { st with messageCounter := st.messageCounter + 1 } i hi
        simp at this
        omega

/-- Claim C7: across any sequence of send calls on one mesh instance, the
message_id of each successful send is strictly greater than the message_id
of every earlier successful send. -/
theorem claim_C7_message_ids_strictly_increasing (st : MeshState)
    (reqs : List (String × String × Nat)) :
    List.Pairwise (· < ·) (runSends st reqs) := by
  induction reqs generalizing st with
  | nil => simp [runSends]
  | cons req rest ih =>
    obtain ⟨s, r, ref⟩ := req
    rcases h : st.agents.lookup r with _ | cb
    · simpa [runSends, send, h] using ih st
    · simp only [runSends, send, h, Option.isNone_some, Bool.false_eq_true,
        if_false, List.pairwise_cons]
      refine ⟨fun i hi => ?_, ih _⟩
      have := runSends_lower_bound rest
        { st with messageCounter := st.messageCounter + 1 } i hi
      simp at this
      omega

/-! ## Heap lemmas for the delivery frame property -/

theorem heapRead_append_lt (h : Heap) (d : PyDict) (r : Nat)
    (hr : r < h.length) : heapRead (h ++ [d]) r = heapRead h r := by
  induction h generalizing r with
  | nil => simp at hr
  | cons a t ih =>
    cases r with
    | zero => rfl
    | succ r => exact ih r (by simpa using hr)

theorem heapRead_append_self (h : Heap) (d : PyDict) :
    heapRead (h ++ [d]) h.length = d := by
  induction h with
  | nil => rfl
  | cons a t ih => exact ih

theorem heapRead_write_self (h : Heap) (r : Nat) (d : PyDict)
    (hr : r < h.length) : heapRead (heapWrite h r d) r = d := by
  induction h generalizing r with
  | nil => simp at hr
  | cons a t ih =>
    cases r with
    | zero => rfl
    | succ r => exact ih r (by simpa using hr)

theorem heapRead_write_ne (h : Heap) (r r2 : Nat) (d : PyDict)
    (hne : r2 ≠ r) : heapRead (heapWrite h r d) r2 = heapRead h r2 := by
  induction h generalizing r r2 with
  | nil => rfl
  | cons a t ih =>
    cases r with
    | zero =>
      cases r2 with
      | zero => exact absurd rfl hne
      | succ r2 => rfl
    | succ r =>
      cases r2 with
      | zero => rfl
      | succ r2 => exact ih r r2 (fun e => hne (by omega))

theorem heapWrite_length (h : Heap) (r : Nat) (d : PyDict) :
    (heapWrite h r d).length = h.length := by
  simp [heapWrite]

/-! ## Remaining claims -/

/-- Claim C8: a recipient registered at `send` time that unregisters before
the delayed delivery fires causes a silent drop: `send` succeeds, and the
delivery step invokes no handler (no dispatch event), leaves the heap
unchanged and raises no error. -/
theorem claim_C8_unregister_midflight_silent_drop (h : Heap) (st : MeshState)
    (s r : String) (ref cb now : Nat)
    (hreg : st.agents.lookup r = some cb) :
    ∃ p st1, send st s r ref = (.ok p, st1) ∧
      deliverMessage h (unregisterAgent st1 r) p now = (h, none) := by
  refine ⟨⟨s, r, ref, st.messageCounter⟩,
    { st with messageCounter := st.messageCounter + 1 },
    by simp [send, hreg], ?_⟩
  have hnone : ((unregisterAgent
      { st with messageCounter := st.messageCounter + 1 } r).agents).lookup r =
      none := lookup_filter_ne_self _ r
  simp [deliverMessage, lookupAgent, hnone]

/-- Witness for C8: agent "A" registered, then unregistered mid-flight. -/
theorem claim_C8_witness :
    ∃ p st1, send ⟨[("A", 1)], 0⟩ "X" "A" 0 = (.ok p, st1) ∧
      deliverMessage [] (unregisterAgent st1 "A") p 0 = ([], none) :=
  claim_C8_unregister_midflight_silent_drop [] ⟨[("A", 1)], 0⟩ "X" "A" 0 1 0
    (by decide)

/-- Claim C10: delivery never mutates the caller's message dictionary. The
handler receives a fresh object (a different reference) holding the
caller's entries extended with exactly `message_id` and `timestamp`, and
the dictionary the sender passed to `send` reads back unchanged after
delivery. -/
theorem claim_C10_delivery_copies_and_preserves_caller_dict (h : Heap)
    (st : MeshState) (p : Pending) (now : Nat) (href : p.msgRef < h.length) :
    heapRead (deliverMessage h st p now).1 p.msgRef = heapRead h p.msgRef ∧
    (∀ cb s ref2, (deliverMessage h st p now).2 = some (cb, s, ref2) →
      s = p.sender ∧ ref2 ≠ p.msgRef ∧
      heapRead (deliverMessage h st p now).1 ref2 =
        dictSetKey
          (dictSetKey (heapRead h p.msgRef) "message_id" (.int p.messageId))
          "timestamp" (.time now)) := by
  have hne : p.msgRef ≠ h.length := Nat.ne_of_lt href
  rcases hlook : lookupAgent st p.recipient with _ | cb
  · refine ⟨by simp [deliverMessage, hlook], ?_⟩
    intro cb s ref2 hev
    simp [deliverMessage, hlook] at hev
  · have hlen1 : (h ++ [heapRead h p.msgRef]).length = h.length + 1 := by simp
    have hread1 : heapRead (h ++ [heapRead h p.msgRef]) h.length =
        heapRead h p.msgRef := heapRead_append_self h _
    constructor
    · simp only [deliverMessage, hlook, heapAlloc]
      rw [heapRead_write_ne _ _ _ _ hne, heapRead_write_ne _ _ _ _ hne,
        heapRead_append_lt _ _ _ href]
    · intro cb2 s2 ref2 hev
      simp only [deliverMessage, hlook, heapAlloc, Option.some.injEq,
        Prod.mk.injEq] at hev
      obtain ⟨-, hs, hr2⟩ := hev
      refine ⟨hs.symm, by omega, ?_⟩
      subst hr2
      simp only [deliverMessage, hlook, heapAlloc]
      rw [heapRead_write_self, heapRead_write_self, hread1]
      all_goals simp [heapWrite]

/-- Witness for C10 on a one-object heap. -/
theorem claim_C10_witness :
    heapRead (deliverMessage [[("content", PyVal.str "hi")]] ⟨[("B", 2)], 6⟩
        ⟨"A", "B", 0, 5⟩ 3).1 0 =
      heapRead [[("content", PyVal.str "hi")]] 0 ∧
    (∀ cb s ref2,
      (deliverMessage [[("content", PyVal.str "hi")]] ⟨[("B", 2)], 6⟩
          ⟨"A", "B", 0, 5⟩ 3).2 = some (cb, s, ref2) →
      s = "A" ∧ ref2 ≠ 0 ∧
      heapRead (deliverMessage [[("content", PyVal.str "hi")]] ⟨[("B", 2)], 6⟩
          ⟨"A", "B", 0, 5⟩ 3).1 ref2 =
        dictSetKey
          (dictSetKey (heapRead [[("content", PyVal.str "hi")]] 0)
            "message_id" (.int 5))
          "timestamp" (.time 3)) :=
  claim_C10_delivery_copies_and_preserves_caller_dict
    [[("content", PyVal.str "hi")]] ⟨[("B", 2)], 6⟩ ⟨"A", "B", 0, 5⟩ 3
    (by decide)

/-- Claim C6: whenever the detection callback surfaces a peer for
connection, the observed advertisement is not the local agent's own, the
peer is not the local agent, the peer is not already connected, and the
peer is not served by an in-process local registration. -/
theorem claim_C6_discovery_filters_self_connected_local (st : BLEState)
    (deviceName : Option String) (queueTargets : List String) (p : String)
    (h : detectionCallback st deviceName queueTargets = some p) :
    deviceName ≠ some (localName st) ∧ p ≠ st.agentId ∧
    st.connectedDevices.contains p = false ∧
    st.localAgents.contains p = false := by
  cases deviceName with
  | none => simp [detectionCallback] at h
  | some name =>
    simp only [detectionCallback] at h
    split_ifs at h with h1 h2 h3 h4 h5
    obtain rfl : splitDashTail name = p := by simpa using h
    push_neg at h3
    refine ⟨by simpa using h1, h3.1, by simpa using h3.2, by simpa using h4⟩

/-- Witness for C6: peer "B" surfaced from a fresh state with a message
queued for it. -/
theorem claim_C6_witness :
    some "AgentMesh-B" ≠ some (localName ⟨"A", ["C"], []⟩) ∧
    "B" ≠ ("A" : String) ∧
    (["C"] : List String).contains "B" = false ∧
    ([] : List String).contains "B" = false :=
  claim_C6_discovery_filters_self_connected_local ⟨"A", ["C"], []⟩
    (some "AgentMesh-B") ["B"] "B" (by decide)

end BLEAgent
